import Mathlib

/-!
Shallow embedding of the cvgen repository: the CV generation pipeline of
src/generate.js (data loader, structural validator, template binder, output
dispatcher with PDF fallback) and the nested dot-path get/set helpers of
docs/js/editor.js, together with theorems settling the specification claims.
-/

set_option maxHeartbeats 1000000

namespace CVGen

/-- Model of a JavaScript runtime value as manipulated by generate.js and
editor.js.  Objects and arrays are both property maps (a JS array is an
object); the isArr flag records what Array.isArray reports.  Numbers are
modelled as integers (all values in the claims are integral).  Property
reads on primitives are modelled as undefined: the index and length
properties of strings and the inherited prototype members of primitives
(constructor, toString and the like) are outside the modelled key space.
A property read on a null or undefined base throws (see jsMember below). -/
inductive JsValue where
  | undef : JsValue
  | null : JsValue
  | bool (b : Bool) : JsValue
  | num (n : Int) : JsValue
  | str (s : String) : JsValue
  | obj (isArr : Bool) (props : List (String × JsValue)) : JsValue

def lookupProp : List (String × JsValue) → String → JsValue
  | [], _ => JsValue.undef
  | (k, v) :: rest, key => if k == key then v else lookupProp rest key

/-- JS property read: an absent key and a read on a primitive both give
undefined. -/
def getProp : JsValue → String → JsValue
  | JsValue.obj _ props, k => lookupProp props k
  | _, _ => JsValue.undef

/-- JS property assignment on an object: update in place, or append a new
key in insertion order. -/
def putProp : List (String × JsValue) → String → JsValue → List (String × JsValue)
  | [], key, v => [(key, v)]
  | (k, w) :: rest, key, v =>
      if k == key then (key, v) :: rest else (k, w) :: putProp rest key v

/-- JS truthiness (ToBoolean). -/
def truthy : JsValue → Bool
  | JsValue.undef => false
  | JsValue.null => false
  | JsValue.bool b => b
  | JsValue.num n => n != 0
  | JsValue.str s => s != ""
  | JsValue.obj _ _ => true

def isArray : JsValue → Bool
  | JsValue.obj a _ => a
  | _ => false

def isUndef : JsValue → Bool
  | JsValue.undef => true
  | _ => false

/-- The two JS values on which a property read throws. -/
def isNullish : JsValue → Bool
  | JsValue.undef => true
  | JsValue.null => true
  | _ => false

def elems : JsValue → List JsValue
  | JsValue.obj _ props => props.map Prod.snd
  | _ => []

mutual
/-- JS String() conversion as used by Array.prototype.join and template
interpolation: null and undefined print as empty, an array joins its
elements with commas, a plain object prints as [object Object]. -/
def jsToString : JsValue → String
  | JsValue.undef => ""
  | JsValue.null => ""
  | JsValue.bool b => if b then "true" else "false"
  | JsValue.num n => toString n
  | JsValue.str s => s
  | JsValue.obj true props => arrCommaJoin props
  | JsValue.obj false _ => "[object Object]"

def arrCommaJoin : List (String × JsValue) → String
  | [] => ""
  | [p] => jsToString p.2
  | p :: q :: rest => jsToString p.2 ++ "," ++ arrCommaJoin (q :: rest)
end

/-- JS Array.prototype.join with an explicit separator. -/
def joinWith (sep : String) : List JsValue → String
  | [] => ""
  | [v] => jsToString v
  | v :: w :: rest => jsToString v ++ sep ++ joinWith sep (w :: rest)

/-- The Handlebars join helper registered by generate.js and editor.js:
a falsy or non-array value gives the empty string, an array gives its
elements joined with a comma and a space. -/
def joinHelper (v : JsValue) : String :=
  if !(truthy v) || !(isArray v) then "" else joinWith ", " (elems v)

def idxProps : Nat → List JsValue → List (String × JsValue)
  | _, [] => []
  | i, v :: rest => (toString i, v) :: idxProps (i + 1) rest

/-- A JS array literal with the given elements. -/
def mkArr (xs : List JsValue) : JsValue := JsValue.obj true (idxProps 0 xs)

def splitDotAux : List Char → List Char → List String
  | [], acc => [String.mk acc.reverse]
  | c :: rest, acc =>
      if c == '.' then String.mk acc.reverse :: splitDotAux rest []
      else splitDotAux rest (c :: acc)

/-- JS String.prototype.split with separator "." . -/
def splitDot (s : String) : List String := splitDotAux s.data []

/-- JS String.prototype.endsWith. -/
def jsEndsWith (s suffix : String) : Bool := suffix.data.isSuffixOf s.data

def replaceFirstAux (pat rep : List Char) : List Char → List Char
  | [] => if pat.isPrefixOf ([] : List Char) then rep else []
  | c :: rest =>
      if pat.isPrefixOf (c :: rest) then rep ++ (c :: rest).drop pat.length
      else c :: replaceFirstAux pat rep rest

/-- JS String.prototype.replace with a plain-string pattern: replaces only
the first occurrence and leaves the string unchanged when the pattern does
not occur. -/
def replaceFirst (s pat rep : String) : String :=
  String.mk (replaceFirstAux pat.data rep.data s.data)

/-- A single-quote character, as it appears in the warning and error
messages of generate.js. -/
def sq : String := String.singleton (Char.ofNat 39)

def typeErrRead (key : String) : String :=
  "TypeError: cannot read properties of null or undefined (reading "
    ++ sq ++ key ++ sq ++ ")"

/-- A raw JS member read, as written in validateData: reading a property of
null or undefined throws a TypeError; on any other base it yields the
property (undefined when absent or on a primitive base). -/
def jsMember : JsValue → String → Except String JsValue
  | JsValue.undef, key => Except.error (typeErrRead key)
  | JsValue.null, key => Except.error (typeErrRead key)
  | v, key => Except.ok (getProp v key)

def warnMissingField (f : String) : String :=
  "Missing " ++ sq ++ f ++ sq ++ " in data"

def warnMissingName : String :=
  "Missing " ++ sq ++ "name" ++ sq ++ " in personal_info"

/-- The for-loop of CVGenerator.validateData: for each required field, read
data[field] (which throws when data is null or undefined) and push a warning
when the value is falsy. -/
def validateLoop (data : JsValue) : List String → List String → Except String (List String)
  | [], ws => Except.ok ws
  | field :: rest, ws =>
      match jsMember data field with
      | Except.error e => Except.error e
      | Except.ok v =>
          validateLoop data rest (if truthy v then ws else ws ++ [warnMissingField field])

/-- CVGenerator.validateData: loops over the required fields pushing a
warning for each falsy value, then warns when personal_info is truthy but
personal_info.name is falsy.  The raw member reads throw a TypeError when
the parsed document itself is null (JSON null parses fine), so the
validator is fallible.  The source prints the warnings; the model returns
them in push order. -/
def validateData (data : JsValue) : Except String (List String) :=
  match validateLoop data ["personal_info", "summary"] [] with
  | Except.error e => Except.error e
  | Except.ok warnings =>
      match jsMember data "personal_info" with
      | Except.error e => Except.error e
      | Except.ok pi =>
          if truthy pi then
            match jsMember pi "name" with
            | Except.error e => Except.error e
            | Except.ok nm =>
                Except.ok (if truthy nm then warnings else warnings ++ [warnMissingName])
          else Except.ok warnings

/-- A compiled Handlebars template (logic-less): literal text, interpolation
of a dotted path, a call of the custom join helper, sequencing, section
iteration, and a conditional section. -/
inductive Tmpl where
  | text (s : String) : Tmpl
  | var (path : List String) : Tmpl
  | joinOf (path : List String) : Tmpl
  | seq (a b : Tmpl) : Tmpl
  | each (path : List String) (body : Tmpl) : Tmpl
  | cond (path : List String) (thn els : Tmpl) : Tmpl

/-- Resolution of a dotted path against the current context. -/
def getPath : JsValue → List String → JsValue
  | v, [] => v
  | v, k :: rest => getPath (getProp v k) rest

/-- The template interpreter, with the current context and the document
state threaded explicitly: the String is the rendered output and the
returned JsValue is the document state after rendering (the interpreter
only ever reads it). -/
def renderT : Tmpl → JsValue → JsValue → String × JsValue
  | Tmpl.text s, _, st => (s, st)
  | Tmpl.var p, ctx, st => (jsToString (getPath ctx p), st)
  | Tmpl.joinOf p, ctx, st => (joinHelper (getPath ctx p), st)
  | Tmpl.seq a b, ctx, st =>
      let r1 := renderT a ctx st
      let r2 := renderT b ctx r1.2
      (r1.1 ++ r2.1, r2.2)
  | Tmpl.each p body, ctx, st =>
      match getPath ctx p with
      | JsValue.obj _ props =>
          props.foldl
            (fun acc kv =>
              let r := renderT body kv.2 acc.2
              (acc.1 ++ r.1, r.2))
            ("", st)
      | _ => ("", st)
  | Tmpl.cond p a b, ctx, st =>
      if truthy (getPath ctx p) then renderT a ctx st else renderT b ctx st

/-- A file system entry as seen through fs-extra: missing (ENOENT), readable
with the given text content, or failing with some other I/O error. -/
inductive FileEntry where
  | absent : FileEntry
  | file (content : String) : FileEntry
  | ioErr (msg : String) : FileEntry

/-- The three error classes of the data loader. -/
inductive LoadError where
  | notFound (path : String) : LoadError
  | malformed (path : String) : LoadError
  | unknown (msg : String) : LoadError

def LoadError.message : LoadError → String
  | LoadError.notFound p => "Input file " ++ sq ++ p ++ sq ++ " not found."
  | LoadError.malformed p => "Invalid JSON in " ++ sq ++ p ++ sq
  | LoadError.unknown m => m

/-- The ambient environment of one run: the file system, the external JSON
parser, the Handlebars compiler, whether the browser launch, the PDF
conversion and file writes succeed, and the bytes the external renderer
would produce for a given HTML text. -/
structure Env where
  fs : String → FileEntry
  parseJson : String → Option JsValue
  compile : String → Tmpl
  launchOk : Bool
  convertOk : Bool
  saveOk : Bool
  pdfRender : String → String

/-- The options of the generate command. -/
structure Options where
  template : String
  input : String
  output : Option String
  htmlOnly : Bool
  validateOnly : Bool

/-- Observable effects of one run: the files written (most recent first),
whether loadTemplate was invoked, the rendered HTML if rendering happened,
and the browser lifecycle flags. -/
structure World where
  files : List (String × String)
  templateLoaded : Bool
  renderedHtml : Option String
  browserLaunched : Bool
  browserClosed : Bool

def World.init : World := ⟨[], false, none, false, false⟩

/-- CVGenerator.loadJsonData: fs.readJson, with ENOENT mapped to a not-found
error, a parse SyntaxError mapped to a malformed-input error, and any other
I/O failure rethrown unchanged. -/
def loadJsonData (env : Env) (filePath : String) : Except LoadError JsValue :=
  match env.fs filePath with
  | FileEntry.absent => Except.error (LoadError.notFound filePath)
  | FileEntry.ioErr m => Except.error (LoadError.unknown m)
  | FileEntry.file content =>
      match env.parseJson content with
      | none => Except.error (LoadError.malformed filePath)
      | some v => Except.ok v

/-- CVGenerator.loadTemplate: reads the template file (recording that the
template stage was invoked), registers the join helper (part of the template
model here) and compiles; ENOENT gives a template-not-found error. -/
def loadTemplate (env : Env) (templatePath : String) (w : World) :
    World × Except String Tmpl :=
  let w1 : World := { w with templateLoaded := true }
  match env.fs templatePath with
  | FileEntry.absent =>
      (w1, Except.error ("Template file " ++ sq ++ templatePath ++ sq ++ " not found."))
  | FileEntry.ioErr m => (w1, Except.error ("Error loading template: " ++ m))
  | FileEntry.file content => (w1, Except.ok (env.compile content))

/-- CVGenerator.renderHtml: apply the compiled template to the data. -/
def renderHtml (template : Tmpl) (data : JsValue) : String :=
  (renderT template data data).1

/-- CVGenerator.saveHtml: ensure the parent directory and write the file.
A missing (undefined) output path makes path.dirname throw a TypeError and
writing to the empty path makes fs.writeFile fail with ENOENT; the catch
rewraps either, as it does any other write failure. -/
def saveHtml (env : Env) (htmlContent : String) (outputPath : Option String)
    (w : World) : World × Except String Unit :=
  match outputPath with
  | none =>
      (w, Except.error "Error saving HTML file: the path argument must be of type string")
  | some p =>
      if p = "" then
        (w, Except.error "Error saving HTML file: ENOENT: no such file or directory")
      else if env.saveOk then
        ({ w with files := (p, htmlContent) :: w.files }, Except.ok ())
      else (w, Except.error "Error saving HTML file: write failed")

/-- CVGenerator.generatePdf: the try block launches the browser, converts,
and writes the PDF; the catch block falls back to saveHtml at the path
obtained by replacing the first occurrence of .pdf with .html; the finally
block closes the browser whenever it was launched. -/
def generatePdf (env : Env) (htmlContent : String) (outputPath : String)
    (w : World) : World × Except String Unit :=
  let tryStep : World × Bool × Except String Unit :=
    if env.launchOk then
      let wl : World := { w with browserLaunched := true }
      if env.convertOk then
        ({ wl with files := (outputPath, env.pdfRender htmlContent) :: wl.files },
          true, Except.ok ())
      else (wl, true, Except.error "Error generating PDF: conversion failed")
    else (w, false, Except.error "Error generating PDF: browser launch failed")
  let w1 := tryStep.1
  let launched := tryStep.2.1
  let caught : World × Except String Unit :=
    match tryStep.2.2 with
    | Except.ok _ => (w1, Except.ok ())
    | Except.error _ =>
        saveHtml env htmlContent (some (replaceFirst outputPath ".pdf" ".html")) w1
  let w2 := if launched then { caught.1 with browserClosed := true } else caught.1
  (w2, caught.2)

/-- The output branch of CVGenerator.generate: htmlOnly set or a path ending
in .html writes the HTML to the given path (which may be undefined when only
htmlOnly is set), a path ending in .pdf goes through PDF generation, any
other truthy path defaults to HTML at path ++ .html, and a missing or empty
(falsy) path writes nothing. -/
def dispatch (env : Env) (htmlContent : String) (output : Option String)
    (htmlOnly : Bool) (w : World) : World × Except String Unit :=
  match output with
  | some p =>
      if htmlOnly || ((p != "") && jsEndsWith p ".html") then
        saveHtml env htmlContent (some p) w
      else if (p != "") && jsEndsWith p ".pdf" then
        generatePdf env htmlContent p w
      else if p != "" then
        saveHtml env htmlContent (some (p ++ ".html")) w
      else (w, Except.ok ())
  | none =>
      if htmlOnly then saveHtml env htmlContent none w
      else (w, Except.ok ())

/-- CVGenerator.generate: load the data, validate (warnings only, but a
TypeError thrown by the raw member reads on a null document propagates and
aborts the run), stop when validateOnly is set, load the template, render,
and dispatch the output. -/
def generate (env : Env) (opts : Options) (w : World) :
    World × Except String Unit :=
  match loadJsonData env opts.input with
  | Except.error e => (w, Except.error e.message)
  | Except.ok data =>
    match validateData data with
    | Except.error e => (w, Except.error e)
    | Except.ok _warnings =>
      if opts.validateOnly then (w, Except.ok ())
      else
        match loadTemplate env opts.template w with
        | (w1, Except.error msg) => (w1, Except.error msg)
        | (w1, Except.ok tmpl) =>
            let htmlContent := renderHtml tmpl data
            let w2 : World := { w1 with renderedHtml := some htmlContent }
            dispatch env htmlContent opts.output opts.htmlOnly w2

/-- The CLI action around generate: any error is reported and the process
exits 1, otherwise it exits 0. -/
def runCLI (env : Env) (opts : Options) (w : World) : World × Nat :=
  match generate env opts w with
  | (w1, Except.ok _) => (w1, 0)
  | (w1, Except.error _) => (w1, 1)

/-- One step of the reduce inside CVEditor.getNestedValue:
current and current[key] defined, then current[key], else undefined. -/
def getStep (current : JsValue) (key : String) : JsValue :=
  if truthy current && !(isUndef (getProp current key)) then getProp current key
  else JsValue.undef

/-- CVEditor.getNestedValue. -/
def getNestedValue (obj : JsValue) (path : String) : JsValue :=
  (splitDot path).foldl getStep obj

/-- The walk of CVEditor.setNestedValue, functionally: descend along the
intermediate keys, replacing a falsy child by a fresh empty object, then
assign the last key on the final target.  Property reads on primitives are
modelled as undefined (inherited built-ins such as constructor, through
which the real walk could descend, are outside the modelled key space), so
a truthy primitive met by the walk leads to a property assignment on a
primitive, which throws a TypeError (editor.js methods are class-body code,
hence strict mode; the assignment throws there for every key). -/
def setNestedGo : JsValue → List String → String → JsValue → Except String JsValue
  | JsValue.obj a props, [], lastKey, value =>
      Except.ok (JsValue.obj a (putProp props lastKey value))
  | _, [], _, _ => Except.error "TypeError: cannot create property on a primitive"
  | JsValue.obj a props, k :: rest, lastKey, value =>
      let child := lookupProp props k
      if truthy child then
        match setNestedGo child rest lastKey value with
        | Except.error e => Except.error e
        | Except.ok c2 => Except.ok (JsValue.obj a (putProp props k c2))
      else
        match setNestedGo (JsValue.obj false []) rest lastKey value with
        | Except.error e => Except.error e
        | Except.ok c2 => Except.ok (JsValue.obj a (putProp props k c2))
  | _, _ :: _, _, _ => Except.error "TypeError: cannot create property on a primitive"

/-- CVEditor.setNestedValue: split the path, pop the last key, reduce over
the remaining keys auto-creating falsy intermediates, then assign. -/
def setNestedValue (obj : JsValue) (path : String) (value : JsValue) :
    Except String JsValue :=
  let keys := splitDot path
  setNestedGo obj keys.dropLast (keys.getLastD "") value

/-- The region where the setter cannot throw: every intermediate value met
by the walk is either falsy (hence replaced by a fresh object) or an object,
and the final target is an object. -/
def goodPath : JsValue → List String → Bool
  | JsValue.obj _ _, [] => true
  | JsValue.obj _ props, k :: rest =>
      if truthy (lookupProp props k) then goodPath (lookupProp props k) rest else true
  | _, _ => false

def propsHasKey : List (String × JsValue) → String → Bool
  | [], _ => false
  | (k, _) :: rest, key => k == key || propsHasKey rest key

def hasProp : JsValue → String → Bool
  | JsValue.obj _ props, k => propsHasKey props k
  | _, _ => false

/-- The validator warnings exactly as claim C3 words them: keyed on field
absence rather than on JS falsiness. -/
def claimedWarnings (data : JsValue) : List String :=
  (if hasProp data "personal_info" then [] else [warnMissingField "personal_info"])
  ++ (if hasProp data "summary" then [] else [warnMissingField "summary"])
  ++ (if hasProp data "personal_info" && !(hasProp (getProp data "personal_info") "name") then
        [warnMissingName]
      else [])

/-- The validator warnings as the code computes them, stated declaratively:
keyed on JS truthiness. -/
def amendedWarnings (data : JsValue) : List String :=
  (["personal_info", "summary"].filter (fun f => !(truthy (getProp data f)))).map warnMissingField
  ++ (if truthy (getProp data "personal_info")
        && !(truthy (getProp (getProp data "personal_info") "name")) then
        [warnMissingName]
      else [])

/-- A concrete happy-path environment used to instantiate the theorems:
every path holds a file with content T, every content parses to the given
document, every template compiles to the literal text HI, and the switches
for browser launch, conversion and writes are as given. -/
def envWith (doc : JsValue) (launch convert save : Bool) : Env :=
  ⟨fun _ => FileEntry.file "T", fun _ => some doc, fun _ => Tmpl.text "HI",
    launch, convert, save, fun h => h⟩

/-- A small well-formed CV document. -/
def wfDoc : JsValue :=
  JsValue.obj false
    [("personal_info", JsValue.obj false [("name", JsValue.str "Ada")]),
     ("summary", JsValue.obj false [("professional_summary", JsValue.str "dev")])]

/-- A document whose personal_info field is present but null: present for the
claimed absence-based warnings, falsy for the implemented truthiness-based
warnings. -/
def exDataC3 : JsValue :=
  JsValue.obj false
    [("personal_info", JsValue.null),
     ("summary", JsValue.obj false [("professional_summary", JsValue.str "dev")])]

/-- An object whose member a holds a truthy primitive: the nested setter
walks into it and throws on the property assignment. -/
def exObjC10 : JsValue := JsValue.obj false [("a", JsValue.str "hello")]

/-- An environment whose file system has no files at all. -/
def envAbsent : Env :=
  ⟨fun _ => FileEntry.absent, fun _ => none, fun _ => Tmpl.text "HI",
    true, true, true, fun h => h⟩

theorem elems_idxProps : ∀ (xs : List JsValue) (i : Nat), (idxProps i xs).map Prod.snd = xs := by
  intro xs
  induction xs with
  | nil => intro i; rfl
  | cons x rest ih => intro i; simp [idxProps, ih]

theorem elems_mkArr (xs : List JsValue) : elems (mkArr xs) = xs := by
  simp [mkArr, elems, elems_idxProps]

/-- C5: the join helper of the binder joins any array of values with a comma
and a space (in particular the three strings a, b, c give the text a, b, c)
and returns the empty string on undefined and on every non-array value. -/
theorem c5_join_helper : ∀ (v : JsValue) (xs : List JsValue),
    joinHelper v = (if isArray v then joinWith ", " (elems v) else "")
    ∧ joinHelper (mkArr xs) = joinWith ", " xs
    ∧ joinHelper (mkArr [JsValue.str "a", JsValue.str "b", JsValue.str "c"]) = "a, b, c"
    ∧ joinHelper JsValue.undef = ""
    ∧ joinHelper (JsValue.str "x") = "" := by
  intro v xs
  refine ⟨?_, ?_, rfl, rfl, rfl⟩
  · cases v with
    | obj a props => cases a <;> simp [joinHelper, truthy, isArray]
    | undef => rfl
    | null => rfl
    | bool b => cases b <;> simp [joinHelper, truthy, isArray]
    | num n => simp [joinHelper, truthy, isArray]
    | str s => simp [joinHelper, truthy, isArray]
  · calc joinHelper (mkArr xs)
        = joinWith ", " (elems (mkArr xs)) := by simp [joinHelper, mkArr, truthy, isArray]
      _ = joinWith ", " xs := by rw [elems_mkArr]

theorem renderT_foldl_state (body : Tmpl)
    (ih : ∀ ctx st, (renderT body ctx st).2 = st)
    (props : List (String × JsValue)) :
    ∀ acc : String × JsValue,
      (props.foldl
        (fun acc kv =>
          let r := renderT body kv.2 acc.2
          (acc.1 ++ r.1, r.2)) acc).2 = acc.2 := by
  induction props with
  | nil => intro acc; rfl
  | cons kv rest ihp =>
      intro acc
      simp only [List.foldl]
      rw [ihp]
      simp [ih]

theorem renderT_state (t : Tmpl) : ∀ (ctx st : JsValue), (renderT t ctx st).2 = st := by
  induction t with
  | text s => intro ctx st; rfl
  | var p => intro ctx st; rfl
  | joinOf p => intro ctx st; rfl
  | seq a b iha ihb => intro ctx st; simp [renderT, iha, ihb]
  | each p body ihb =>
      intro ctx st
      simp only [renderT]
      cases h : getPath ctx p with
      | obj a props => exact renderT_foldl_state body ihb props ("", st)
      | undef => rfl
      | null => rfl
      | bool b => rfl
      | num n => rfl
      | str s => rfl
  | cond p a b iha ihb =>
      intro ctx st
      simp only [renderT]
      cases truthy (getPath ctx p) <;> simp [iha, ihb]

/-- C8: rendering is a pure function of the compiled template and the
document: rendering twice with the same inputs gives the same text, and the
document state threaded through the interpreter comes back unchanged (the
compiled template is an immutable value of the model). -/
theorem c8_render_pure : ∀ (template : Tmpl) (data : JsValue),
    renderHtml template data = renderHtml template data
    ∧ (renderT template data data).2 = data :=
  fun t d => ⟨rfl, renderT_state t d d⟩

theorem jsMember_ok_of_not_nullish (v : JsValue) (k : String)
    (h : isNullish v = false) : jsMember v k = Except.ok (getProp v k) := by
  cases v with
  | undef => exact absurd h (by decide)
  | null => exact absurd h (by decide)
  | bool b => rfl
  | num n => rfl
  | str s => rfl
  | obj a props => rfl

theorem jsMember_ok_of_truthy (v : JsValue) (k : String)
    (h : truthy v = true) : jsMember v k = Except.ok (getProp v k) := by
  cases v with
  | undef => exact absurd h (by decide)
  | null => exact absurd h (by decide)
  | bool b => rfl
  | num n => rfl
  | str s => rfl
  | obj a props => rfl

/-- On any non-nullish document the validator returns exactly the
truthiness-keyed warnings, without throwing. -/
theorem validateData_ok (data : JsValue) (hnn : isNullish data = false) :
    validateData data = Except.ok (amendedWarnings data) := by
  have hm : ∀ k, jsMember data k = Except.ok (getProp data k) :=
    fun k => jsMember_ok_of_not_nullish data k hnn
  cases h1 : truthy (getProp data "personal_info") with
  | false =>
      cases h2 : truthy (getProp data "summary") <;>
        simp [validateData, validateLoop, hm, h1, h2, amendedWarnings]
  | true =>
      have hname := jsMember_ok_of_truthy (getProp data "personal_info") "name" h1
      cases h2 : truthy (getProp data "summary") <;>
      cases h3 : truthy (getProp (getProp data "personal_info") "name") <;>
        simp [validateData, validateLoop, hm, hname, h1, h2, h3, amendedWarnings]

/-- C3 counterexample: on a document whose personal_info is present but
null, the code warns about personal_info (its value is falsy) and does not
warn about the missing name (the guard is falsy), while the claimed
absence-based warnings are exactly the opposite. -/
theorem c3_validator_counterexample :
    validateData exDataC3 ≠ Except.ok (claimedWarnings exDataC3) := by
  intro h
  exact absurd (Except.ok.inj h) (by decide)

theorem loadTemplate_fst (env : Env) (p : String) (w : World) :
    (loadTemplate env p w).1 = { w with templateLoaded := true } := by
  unfold loadTemplate
  cases env.fs p <;> rfl

theorem saveHtml_templateLoaded (env : Env) (h : String) (o : Option String) (w : World) :
    (saveHtml env h o w).1.templateLoaded = w.templateLoaded := by
  unfold saveHtml
  cases o with
  | none => rfl
  | some p =>
      by_cases hp : p = ""
      · simp [hp]
      · cases hs : env.saveOk <;> simp [hp, hs]

theorem saveHtml_browserLaunched (env : Env) (h : String) (o : Option String) (w : World) :
    (saveHtml env h o w).1.browserLaunched = w.browserLaunched := by
  unfold saveHtml
  cases o with
  | none => rfl
  | some p =>
      by_cases hp : p = ""
      · simp [hp]
      · cases hs : env.saveOk <;> simp [hp, hs]

theorem saveHtml_browserClosed (env : Env) (h : String) (o : Option String) (w : World) :
    (saveHtml env h o w).1.browserClosed = w.browserClosed := by
  unfold saveHtml
  cases o with
  | none => rfl
  | some p =>
      by_cases hp : p = ""
      · simp [hp]
      · cases hs : env.saveOk <;> simp [hp, hs]

theorem generatePdf_templateLoaded (env : Env) (h p : String) (w : World) :
    (generatePdf env h p w).1.templateLoaded = w.templateLoaded := by
  unfold generatePdf
  cases hl : env.launchOk <;> cases hc : env.convertOk <;>
    simp [hl, hc, saveHtml_templateLoaded]

theorem dispatch_templateLoaded (env : Env) (h : String) (o : Option String)
    (b : Bool) (w : World) :
    (dispatch env h o b w).1.templateLoaded = w.templateLoaded := by
  unfold dispatch
  cases o with
  | none => cases b <;> simp [saveHtml_templateLoaded]
  | some p =>
      cases hb : b <;> cases hh : jsEndsWith p ".html" <;>
      cases hpd : jsEndsWith p ".pdf" <;> cases hne : (p != "") <;>
        simp [hb, hh, hpd, hne, saveHtml_templateLoaded, generatePdf_templateLoaded]

/-- C3 amended: on every parsed document other than JSON null (and the
unreachable undefined) the validator does not fail and produces exactly, in
order, a warning for each of personal_info and summary whose value is falsy
(absent, null, false, zero or empty), then a warning for the missing name
when personal_info is truthy but personal_info.name is falsy; on the parsed
document null the raw member read throws a TypeError and the run aborts.
The warnings themselves never block the run, which always proceeds to the
template stage when validateOnly is unset and the input loads to a non-null
document. -/
theorem c3_validator_amended : ∀ (data : JsValue),
    (isNullish data = false → validateData data = Except.ok (amendedWarnings data))
    ∧ validateData JsValue.null = Except.error (typeErrRead "personal_info")
    ∧ (∀ (env : Env) (opts : Options) (w : World),
        opts.validateOnly = false →
        (∃ d, loadJsonData env opts.input = Except.ok d ∧ isNullish d = false) →
        (generate env opts w).1.templateLoaded = true) := by
  intro data
  refine ⟨validateData_ok data, rfl, ?_⟩
  intro env opts w hv hex
  obtain ⟨d, hd, hnn⟩ := hex
  unfold generate
  simp only [hd, validateData_ok d hnn, hv, Bool.false_eq_true, if_false]
  rcases hlt : loadTemplate env opts.template w with ⟨w1, res⟩
  have hw1 : w1 = { w with templateLoaded := true } := by
    have h := loadTemplate_fst env opts.template w
    rw [hlt] at h
    exact h
  cases res with
  | error msg => simp [hw1]
  | ok tmpl =>
      simp only []
      rw [dispatch_templateLoaded]
      simp [hw1]

theorem lookup_putProp : ∀ (props : List (String × JsValue)) (key : String) (v : JsValue),
    lookupProp (putProp props key v) key = v := by
  intro props key v
  induction props with
  | nil => simp [putProp, lookupProp]
  | cons kv rest ih =>
      obtain ⟨k, w⟩ := kv
      cases h : (k == key) <;> simp [putProp, lookupProp, h, ih]

theorem goodPath_fresh : ∀ (rest : List String), goodPath (JsValue.obj false []) rest = true := by
  intro rest
  cases rest with
  | nil => rfl
  | cons k r => rfl

theorem setGet_aux : ∀ (keys : List String) (v : JsValue) (lastKey : String) (value : JsValue),
    goodPath v keys = true →
    ∃ a2 props2,
      setNestedGo v keys lastKey value = Except.ok (JsValue.obj a2 props2)
      ∧ (keys ++ [lastKey]).foldl getStep (JsValue.obj a2 props2) = value := by
  intro keys
  induction keys with
  | nil =>
      intro v lastKey value hg
      cases v with
      | obj a props =>
          refine ⟨a, putProp props lastKey value, rfl, ?_⟩
          simp only [List.nil_append, List.foldl, getStep, truthy, getProp, lookup_putProp]
          cases value <;> simp [isUndef]
      | undef => simp [goodPath] at hg
      | null => simp [goodPath] at hg
      | bool b => simp [goodPath] at hg
      | num n => simp [goodPath] at hg
      | str s => simp [goodPath] at hg
  | cons k rest ih =>
      intro v lastKey value hg
      cases v with
      | obj a props =>
          simp only [goodPath] at hg
          cases hc : truthy (lookupProp props k) with
          | false =>
              obtain ⟨a2, props2, hset, hwalk⟩ :=
                ih (JsValue.obj false []) lastKey value (goodPath_fresh rest)
              refine ⟨a, putProp props k (JsValue.obj a2 props2), ?_, ?_⟩
              · simp [setNestedGo, hc, hset]
              · simp only [List.cons_append, List.foldl, getStep, truthy, getProp,
                  lookup_putProp, isUndef, Bool.and_true, Bool.not_false, if_true]
                exact hwalk
          | true =>
              rw [hc] at hg
              simp only [if_true] at hg
              obtain ⟨a2, props2, hset, hwalk⟩ := ih (lookupProp props k) lastKey value hg
              refine ⟨a, putProp props k (JsValue.obj a2 props2), ?_, ?_⟩
              · simp [setNestedGo, hc, hset]
              · simp only [List.cons_append, List.foldl, getStep, truthy, getProp,
                  lookup_putProp, isUndef, Bool.and_true, Bool.not_false, if_true]
                exact hwalk
      | undef => simp [goodPath] at hg
      | null => simp [goodPath] at hg
      | bool b => simp [goodPath] at hg
      | num n => simp [goodPath] at hg
      | str s => simp [goodPath] at hg

/-- C10 counterexample: with an object whose member a is the truthy
primitive string hello, setting the path a.b throws a TypeError (strict-mode
property creation on a primitive), so no value can be read back. -/
theorem c10_nested_counterexample :
    setNestedValue exObjC10 "a.b" (JsValue.num 5)
      = Except.error "TypeError: cannot create property on a primitive" := rfl

theorem isUndef_eq_undef (v : JsValue) (h : isUndef v = true) : v = JsValue.undef := by
  cases v <;> simp [isUndef] at h ⊢

theorem foldl_getStep_undef : ∀ (ks : List String),
    List.foldl getStep JsValue.undef ks = JsValue.undef := by
  intro ks
  induction ks with
  | nil => rfl
  | cons k rest ih => simpa [List.foldl, getStep, truthy] using ih

/-- C10 amended: for every object and non-empty dot-separated path all of
whose pre-existing intermediate values are falsy (auto-created) or objects,
the setter succeeds, auto-creating missing intermediate objects, and the
getter then returns the written value; within the modelled key space (own
data properties, not inherited built-ins of primitives) a truthy primitive
met by the walk makes the strict-mode property assignment throw instead.
Reading a path that meets an absent key returns undefined rather than
failing: an undefined property read makes the getter step yield undefined,
and once the walk holds undefined after any prefix of the path the whole
read is undefined. -/
theorem c10_nested_amended :
    (∀ (obj : JsValue) (path : String) (value : JsValue)
        (keys : List String) (lastKey : String),
        splitDot path = keys ++ [lastKey] →
        goodPath obj keys = true →
        ∃ v2, setNestedValue obj path value = Except.ok v2
          ∧ getNestedValue v2 path = value)
    ∧ (∀ (v : JsValue) (k : String), isUndef (getProp v k) = true →
        getStep v k = JsValue.undef)
    ∧ (∀ (obj : JsValue) (path : String) (keys1 keys2 : List String),
        splitDot path = keys1 ++ keys2 →
        isUndef (List.foldl getStep obj keys1) = true →
        getNestedValue obj path = JsValue.undef) := by
  refine ⟨?_, ?_, ?_⟩
  · intro obj path value keys lastKey hsplit hg
    obtain ⟨a2, props2, hset, hwalk⟩ := setGet_aux keys obj lastKey value hg
    refine ⟨JsValue.obj a2 props2, ?_, ?_⟩
    · unfold setNestedValue
      rw [hsplit]
      show setNestedGo obj (keys ++ [lastKey]).dropLast ((keys ++ [lastKey]).getLastD "") value
          = Except.ok (JsValue.obj a2 props2)
      rw [List.dropLast_concat, List.getLastD_concat]
      exact hset
    · unfold getNestedValue
      rw [hsplit]
      exact hwalk
  · intro v k h
    simp [getStep, h]
  · intro obj path keys1 keys2 hsplit hu
    unfold getNestedValue
    rw [hsplit, List.foldl_append, isUndef_eq_undef (List.foldl getStep obj keys1) hu]
    exact foldl_getStep_undef keys2

/-- C10 witness: writing x at a.b into the empty object succeeds and reads
back as x; reading a.b on the empty object (absent intermediate a) gives
undefined. -/
theorem c10_nested_amended_witness :
    (∃ v2, setNestedValue (JsValue.obj false []) "a.b" (JsValue.str "x")
        = Except.ok v2
      ∧ getNestedValue v2 "a.b" = JsValue.str "x")
    ∧ getNestedValue (JsValue.obj false []) "a.b" = JsValue.undef :=
  ⟨c10_nested_amended.1 (JsValue.obj false []) "a.b" (JsValue.str "x") ["a"] "b"
     (by decide) (by decide),
   c10_nested_amended.2.2 (JsValue.obj false []) "a.b" ["a"] ["b"]
     (by decide) (by decide)⟩

/-- C3 witness: the amended warning equation evaluated on the null-field
document, and a concrete run with validateOnly unset that reaches the
template stage. -/
theorem c3_validator_amended_witness :
    validateData exDataC3 = Except.ok (amendedWarnings exDataC3)
    ∧ (generate (envWith wfDoc true true true) (Options.mk "t" "i" none false false)
        World.init).1.templateLoaded = true :=
  ⟨(c3_validator_amended exDataC3).1 rfl,
   (c3_validator_amended wfDoc).2.2 (envWith wfDoc true true true)
     (Options.mk "t" "i" none false false) World.init rfl ⟨wfDoc, rfl, rfl⟩⟩

/-- C4: the loader returns the parsed document or fails with exactly one of
the three error classes, determined by the file entry: not-found for a
missing source, malformed for unparsable content, unknown for any other I/O
failure; and any loader error makes the CLI run exit non-zero, with no
retry (the loader is consulted exactly once per run). -/
theorem c4_loader_classification : ∀ (env : Env) (filePath : String),
    ((env.fs filePath = FileEntry.absent
        ∧ loadJsonData env filePath = Except.error (LoadError.notFound filePath))
      ∨ (∃ c, env.fs filePath = FileEntry.file c ∧ env.parseJson c = none
        ∧ loadJsonData env filePath = Except.error (LoadError.malformed filePath))
      ∨ (∃ m, env.fs filePath = FileEntry.ioErr m
        ∧ loadJsonData env filePath = Except.error (LoadError.unknown m))
      ∨ (∃ c v, env.fs filePath = FileEntry.file c ∧ env.parseJson c = some v
        ∧ loadJsonData env filePath = Except.ok v))
    ∧ (∀ (opts : Options) (w : World) (e : LoadError),
        loadJsonData env opts.input = Except.error e → (runCLI env opts w).2 = 1) := by
  intro env filePath
  constructor
  · cases hf : env.fs filePath with
    | absent => exact Or.inl ⟨rfl, by simp [loadJsonData, hf]⟩
    | ioErr m => exact Or.inr (Or.inr (Or.inl ⟨m, rfl, by simp [loadJsonData, hf]⟩))
    | file c =>
        cases hp : env.parseJson c with
        | none => exact Or.inr (Or.inl ⟨c, rfl, hp, by simp [loadJsonData, hf, hp]⟩)
        | some v =>
            exact Or.inr (Or.inr (Or.inr ⟨c, v, rfl, hp, by simp [loadJsonData, hf, hp]⟩))
  · intro opts w e he
    simp [runCLI, generate, he]

/-- C4 witness: loading from a file system with no files exits with code 1. -/
theorem c4_loader_classification_witness :
    (runCLI envAbsent (Options.mk "t" "i" none false false) World.init).2 = 1 :=
  (c4_loader_classification envAbsent "i").2 (Options.mk "t" "i" none false false)
    World.init (LoadError.notFound "i") rfl

/-- C9: on every exit path of generatePdf the browser-launched flag of the
result equals the launch outcome, and whenever a browser was launched it is
closed before the step returns (the finally block always runs). -/
theorem c9_browser_cleanup : ∀ (env : Env) (htmlContent outputPath : String) (w : World),
    w.browserLaunched = false → w.browserClosed = false →
    ((generatePdf env htmlContent outputPath w).1.browserLaunched = env.launchOk
      ∧ ((generatePdf env htmlContent outputPath w).1.browserLaunched = true →
          (generatePdf env htmlContent outputPath w).1.browserClosed = true)) := by
  intro env h p w hL hC
  unfold generatePdf
  cases hl : env.launchOk <;> cases hc : env.convertOk <;>
    simp [hl, hc, hL, hC, saveHtml_browserLaunched, saveHtml_browserClosed]

/-- C9 witness: with a launch that succeeds and a conversion that fails, the
browser is both launched and closed. -/
theorem c9_browser_cleanup_witness :
    (generatePdf (envWith wfDoc true false true) "HI" "cv.pdf" World.init).1.browserLaunched = true
    ∧ (generatePdf (envWith wfDoc true false true) "HI" "cv.pdf" World.init).1.browserClosed = true := by
  have h := c9_browser_cleanup (envWith wfDoc true false true) "HI" "cv.pdf" World.init rfl rfl
  exact ⟨h.1, h.2 h.1⟩

/-- C7: with validateOnly set, generate leaves the world untouched (the
template is never loaded, nothing is rendered, no file is written), and on
a well-formed input (truthy personal_info with a truthy name, truthy
summary) the validator emits zero warnings and the run succeeds. -/
theorem c7_validate_only : ∀ (env : Env) (opts : Options) (w : World) (data : JsValue),
    opts.validateOnly = true →
    ((generate env opts w).1 = w
      ∧ (loadJsonData env opts.input = Except.ok data →
          truthy (getProp data "personal_info") = true →
          truthy (getProp (getProp data "personal_info") "name") = true →
          truthy (getProp data "summary") = true →
          validateData data = Except.ok [] ∧ (generate env opts w).2 = Except.ok ())) := by
  intro env opts w data hv
  constructor
  · unfold generate
    cases hl : loadJsonData env opts.input with
    | error e => rfl
    | ok d =>
        cases hvd : validateData d with
        | error e => simp [hvd]
        | ok ws => simp [hvd, hv]
  · intro hload h1 h2 h3
    have hnn : isNullish data = false := by
      cases data with
      | undef => exact absurd h1 (by decide)
      | null => exact absurd h1 (by decide)
      | bool b => rfl
      | num n => rfl
      | str s => rfl
      | obj a props => rfl
    have hvd := validateData_ok data hnn
    have hw : amendedWarnings data = [] := by
      simp [amendedWarnings, h1, h2, h3]
    constructor
    · rw [hvd, hw]
    · simp [generate, hload, hvd, hv]

/-- C7 witness: a concrete validate-only run on a well-formed document. -/
theorem c7_validate_only_witness :
    (generate (envWith wfDoc true true true) (Options.mk "t" "i" none false true)
        World.init).1 = World.init
    ∧ validateData wfDoc = Except.ok []
    ∧ (generate (envWith wfDoc true true true) (Options.mk "t" "i" none false true)
        World.init).2 = Except.ok () := by
  have h := c7_validate_only (envWith wfDoc true true true)
    (Options.mk "t" "i" none false true) World.init wfDoc rfl
  exact ⟨h.1, (h.2 rfl rfl rfl rfl).1, (h.2 rfl rfl rfl rfl).2⟩

/-- C2 counterexample: with no output path but htmlOnly set, the first
dispatch branch still fires and saveHtml receives an undefined path, so the
run exits 1 instead of completing successfully (and still writes nothing). -/
theorem c2_no_output_counterexample :
    (runCLI (envWith wfDoc true true true) (Options.mk "t" "i" none true false)
        World.init).2 = 1
    ∧ (runCLI (envWith wfDoc true true true) (Options.mk "t" "i" none true false)
        World.init).1.files = [] :=
  ⟨rfl, rfl⟩

/-- C2 amended: when no output path is supplied and htmlOnly is unset, a run
whose input loads to a non-null document and whose template file exists
writes nothing and completes successfully; the document is rendered exactly
when validateOnly is unset, and with validateOnly set the pipeline stops
after validation leaving the world untouched (nothing rendered). -/
theorem c2_no_output_amended : ∀ (env : Env) (opts : Options) (w : World)
    (data : JsValue) (tcontent : String),
    opts.output = none → opts.htmlOnly = false →
    loadJsonData env opts.input = Except.ok data →
    isNullish data = false →
    env.fs opts.template = FileEntry.file tcontent →
    (((generate env opts w).1.files = w.files ∧ (generate env opts w).2 = Except.ok ())
      ∧ (opts.validateOnly = false →
          (generate env opts w).1.renderedHtml
            = some (renderHtml (env.compile tcontent) data))
      ∧ (opts.validateOnly = true → (generate env opts w).1 = w)) := by
  intro env opts w data tcontent ho hh hload hnn htf
  have hvd := validateData_ok data hnn
  cases hv : opts.validateOnly with
  | true =>
      have hgen : generate env opts w = (w, Except.ok ()) := by
        simp [generate, hload, hvd, hv]
      rw [hgen]
      exact ⟨⟨rfl, rfl⟩, fun hfalse => absurd hfalse (by simp), fun _ => rfl⟩
  | false =>
      have hgen : generate env opts w
          = (⟨w.files, true, some (renderHtml (env.compile tcontent) data),
                w.browserLaunched, w.browserClosed⟩,
              Except.ok ()) := by
        simp [generate, hload, hvd, hv, loadTemplate, htf, dispatch, ho, hh]
      rw [hgen]
      exact ⟨⟨rfl, rfl⟩, fun _ => rfl, fun hfalse => absurd hfalse (by simp)⟩

/-- C2 witness: a concrete run with no output path renders HI, writes no
file and succeeds. -/
theorem c2_no_output_amended_witness :
    (generate (envWith wfDoc true true true) (Options.mk "t" "i" none false false)
        World.init).1.files = []
    ∧ (generate (envWith wfDoc true true true) (Options.mk "t" "i" none false false)
        World.init).2 = Except.ok ()
    ∧ (generate (envWith wfDoc true true true) (Options.mk "t" "i" none false false)
        World.init).1.renderedHtml = some "HI" := by
  have h := c2_no_output_amended (envWith wfDoc true true true)
    (Options.mk "t" "i" none false false) World.init wfDoc "T" rfl rfl rfl rfl rfl
  exact ⟨h.1.1, h.1.2, h.2.1 rfl⟩

/-- C6 counterexample: the empty string is an output path whose extension is
neither .html nor .pdf, yet the dispatcher (JS truthiness test on the path)
writes nothing at all and succeeds, instead of writing to .html as the
claim universally requires. -/
theorem c6_default_html_counterexample :
    dispatch (envWith wfDoc true true true) "HI" (some "") false World.init
      = (World.init, Except.ok ()) := rfl

/-- C6 amended: for every non-empty output path ending neither in .html nor
in .pdf (htmlOnly unset), the dispatcher writes the rendered HTML to the
path with .html appended; for every output path ending in .html the content
written at exactly that path is the rendered HTML (assuming writes
succeed). -/
theorem append_html_ne_empty (p : String) : p ++ ".html" ≠ "" := by
  cases p with
  | mk l =>
      intro h
      have hd : l ++ ".html".data = ([] : List Char) := congrArg String.data h
      rw [List.append_eq_nil] at hd
      exact absurd hd.2 (by decide)

theorem c6_default_html_amended : ∀ (env : Env) (htmlContent p : String)
    (htmlOnly : Bool) (w : World),
    env.saveOk = true →
    ((p ≠ "" → htmlOnly = false → jsEndsWith p ".html" = false →
        jsEndsWith p ".pdf" = false →
        dispatch env htmlContent (some p) htmlOnly w
          = ({ w with files := (p ++ ".html", htmlContent) :: w.files }, Except.ok ()))
      ∧ (jsEndsWith p ".html" = true →
          dispatch env htmlContent (some p) htmlOnly w
            = ({ w with files := (p, htmlContent) :: w.files }, Except.ok ()))) := by
  intro env hc p b w hs
  constructor
  · intro hne hb hh hpd
    unfold dispatch
    simp [hb, hh, hpd, hne, saveHtml, hs, append_html_ne_empty p]
  · intro hh
    have hne : p ≠ "" := by
      intro hp
      rw [hp] at hh
      exact absurd hh (by decide)
    unfold dispatch
    simp [hh, hne, saveHtml, hs]

/-- C6 witness: the path out (no recognized extension) is written to
out.html, and the path cv.html is written at exactly cv.html. -/
theorem c6_default_html_amended_witness :
    dispatch (envWith wfDoc true true true) "HI" (some "out") false World.init
      = (⟨[("out.html", "HI")], false, none, false, false⟩, Except.ok ())
    ∧ dispatch (envWith wfDoc true true true) "HI" (some "cv.html") true World.init
      = (⟨[("cv.html", "HI")], false, none, false, false⟩, Except.ok ()) := by
  have h1 := c6_default_html_amended (envWith wfDoc true true true) "HI" "out" false World.init rfl
  have h2 := c6_default_html_amended (envWith wfDoc true true true) "HI" "cv.html" true World.init rfl
  exact ⟨h1.1 (by decide) rfl (by decide) (by decide), h2.2 (by decide)⟩

theorem ends_pdf_ne_empty (p : String) (h : jsEndsWith p ".pdf" = true) : p ≠ "" := by
  intro hp
  rw [hp] at h
  exact absurd h (by decide)

theorem replaceFirstAux_ne_nil (pat rep : List Char) (hrep : rep ≠ []) :
    ∀ (s : List Char), s ≠ [] → replaceFirstAux pat rep s ≠ [] := by
  intro s hs
  cases s with
  | nil => exact absurd rfl hs
  | cons c rest =>
      unfold replaceFirstAux
      split
      · simp [hrep]
      · simp

theorem replaceFirst_pdf_ne_empty (p : String) (h : jsEndsWith p ".pdf" = true) :
    replaceFirst p ".pdf" ".html" ≠ "" := by
  have hne : p ≠ "" := ends_pdf_ne_empty p h
  have hdata : p.data ≠ [] := by
    intro hd
    apply hne
    cases p with
    | mk l =>
        have hl : l = [] := hd
        subst hl
        rfl
  intro hcontra
  apply replaceFirstAux_ne_nil ".pdf".data ".html".data (by decide) p.data hdata
  have hd2 := congrArg String.data hcontra
  simpa [replaceFirst] using hd2

theorem ends_pdf_not_html (p : String) (h : jsEndsWith p ".pdf" = true) :
    jsEndsWith p ".html" = false := by
  unfold jsEndsWith at *
  unfold List.isSuffixOf at *
  have e1 : (".pdf".data.reverse) = ['f', 'd', 'p', '.'] := by decide
  have e2 : (".html".data.reverse) = ['l', 'm', 't', 'h', '.'] := by decide
  rw [e1] at h
  rw [e2]
  cases hr : p.data.reverse with
  | nil => rw [hr] at h; simp [List.isPrefixOf] at h
  | cons c rest =>
      rw [hr] at h
      simp only [List.isPrefixOf, Bool.and_eq_true, beq_iff_eq] at h
      obtain ⟨hc, -⟩ := h
      subst hc
      rfl

/-- C1 counterexample: with output path a.pdf.pdf and a failing converter,
the run succeeds but the fallback file is a.html.pdf — the code replaces the
first occurrence of .pdf, not the .pdf suffix, so no file exists at the
claimed path a.pdf.html. -/
theorem c1_pdf_fallback_counterexample :
    (runCLI (envWith wfDoc false false true)
        (Options.mk "t" "i" (some "a.pdf.pdf") false false) World.init).2 = 0
    ∧ (runCLI (envWith wfDoc false false true)
        (Options.mk "t" "i" (some "a.pdf.pdf") false false) World.init).1.files
      = [("a.html.pdf", "HI")]
    ∧ ((runCLI (envWith wfDoc false false true)
        (Options.mk "t" "i" (some "a.pdf.pdf") false false) World.init).1.files).lookup
          "a.pdf.html" = none :=
  ⟨rfl, rfl, rfl⟩

/-- C1 amended: for every rendered HTML text and output path ending in .pdf
(htmlOnly unset), if the PDF conversion step fails for any reason the run
still completes successfully and the same HTML text is written to the path
obtained by replacing the first occurrence of .pdf with .html (which for a
path containing .pdf only as its suffix is the claimed suffix
replacement). -/
theorem c1_pdf_fallback_amended : ∀ (env : Env) (opts : Options) (w : World)
    (p : String) (data : JsValue) (tcontent : String),
    opts.output = some p → opts.htmlOnly = false → opts.validateOnly = false →
    jsEndsWith p ".pdf" = true →
    loadJsonData env opts.input = Except.ok data →
    isNullish data = false →
    env.fs opts.template = FileEntry.file tcontent →
    (env.launchOk && env.convertOk) = false →
    env.saveOk = true →
    ((runCLI env opts w).2 = 0
      ∧ (replaceFirst p ".pdf" ".html", renderHtml (env.compile tcontent) data)
          ∈ (runCLI env opts w).1.files) := by
  intro env opts w p data tcontent ho hh hv hpd hload hnn htf hconv hs
  have hvd := validateData_ok data hnn
  have hhtml : jsEndsWith p ".html" = false := ends_pdf_not_html p hpd
  have hne : p ≠ "" := ends_pdf_ne_empty p hpd
  have hrne : replaceFirst p ".pdf" ".html" ≠ "" := replaceFirst_pdf_ne_empty p hpd
  cases hl : env.launchOk with
  | false =>
      simp [runCLI, generate, hload, hvd, hv, loadTemplate, htf, dispatch, ho, hh,
        hhtml, hpd, hne, generatePdf, hl, saveHtml, hrne, hs]
  | true =>
      have hc : env.convertOk = false := by
        cases hcc : env.convertOk
        · rfl
        · rw [hl, hcc] at hconv
          exact absurd hconv (by decide)
      simp [runCLI, generate, hload, hvd, hv, loadTemplate, htf, dispatch, ho, hh,
        hhtml, hpd, hne, generatePdf, hl, hc, saveHtml, hrne, hs]

/-- C1 witness: with output path out/cv.pdf and a browser that fails to
launch, the run exits 0 and out/cv.html holds the rendered HTML. -/
theorem c1_pdf_fallback_amended_witness :
    (runCLI (envWith wfDoc false false true)
        (Options.mk "t" "i" (some "out/cv.pdf") false false) World.init).2 = 0
    ∧ ("out/cv.html", "HI") ∈ (runCLI (envWith wfDoc false false true)
        (Options.mk "t" "i" (some "out/cv.pdf") false false) World.init).1.files := by
  have h := c1_pdf_fallback_amended (envWith wfDoc false false true)
    (Options.mk "t" "i" (some "out/cv.pdf") false false) World.init "out/cv.pdf" wfDoc "T"
    rfl rfl rfl (by decide) rfl rfl rfl rfl rfl
  exact ⟨h.1, h.2⟩

end CVGen
